import Mathlib

/-!
Verification development for the shoe-scanner backend core
(`backend/src/services/openai.ts` and the overlay renderer).

Modelling conventions:
* JavaScript numbers are modelled as exact rationals (`ℚ`); every place the
  code rounds or clamps is made explicit.
* `string | null` fields become `Option String`; JavaScript truthiness on
  such fields (`c.brand && c.model`) is `jsTruthy` (null and "" are falsy).
* Thrown exceptions become `Except`; `try/catch` becomes a `match` on the
  embedded body.
* Parsed JSON is the inductive `JsonValue`; objects are association lists
  looked up by first key occurrence (JavaScript objects have unique keys).
-/

/-- Truthiness of a `string | null` JavaScript value: `null` and `""` are falsy. -/
def jsTruthy (s : Option String) : Bool :=
  match s with
  | none => false
  | some str => str ≠ ""

/-- JavaScript `Math.round` on a rational: floor of `q + 1/2`. -/
def jsRound (q : ℚ) : ℤ := ⌊q + 1/2⌋

/-- Embeds `clamp01` from `openai.ts`: `Math.max(0, Math.min(1, value))`. -/
def clamp01 (value : ℚ) : ℚ := max 0 (min 1 value)

/-- Bounding box with normalized coordinates, from `contracts.ts`. -/
structure BBox where
  x : ℚ
  y : ℚ
  w : ℚ
  h : ℚ
  deriving DecidableEq, Repr

/-- Embeds `normalizeBbox` from `openai.ts`:
clamp `x`,`y` to `[0,1]`, then `w = max(0.01, min(clamp01 w, 1 - x))` and
`h = max(0.01, min(clamp01 h, 1 - y))`; `null` maps to `null`. -/
def normalizeBbox : Option BBox → Option BBox
  | none => none
  | some bbox =>
    let x := clamp01 bbox.x
    let y := clamp01 bbox.y
    let w := max (1/100) (min (clamp01 bbox.w) (1 - x))
    let h := max (1/100) (min (clamp01 bbox.h) (1 - y))
    some ⟨x, y, w, h⟩

theorem clamp01_of_mem (q : ℚ) (h0 : 0 ≤ q) (h1 : q ≤ 1) : clamp01 q = q := by
  unfold clamp01
  rw [min_eq_right h1, max_eq_right h0]

/-- C1: the claim as stated is false: for the in-range input
`{x: 1, y: 0, w: 1/2, h: 1/2}` the normalized box has `w = 1/100`, so
`x + w = 101/100 > 1` and the box pokes out of the unit square. -/
theorem normalizeBbox_c1_counterexample :
    (0 ≤ (⟨1, 0, 1/2, 1/2⟩ : BBox).x ∧ (⟨1, 0, 1/2, 1/2⟩ : BBox).x ≤ 1 ∧
     0 ≤ (⟨1, 0, 1/2, 1/2⟩ : BBox).y ∧ (⟨1, 0, 1/2, 1/2⟩ : BBox).y ≤ 1) ∧
    normalizeBbox (some ⟨1, 0, 1/2, 1/2⟩) = some ⟨1, 0, 1/100, 1/2⟩ ∧
    ¬ ((1 : ℚ) + 1/100 ≤ 1) := by
  refine ⟨⟨by norm_num, by norm_num, by norm_num, by norm_num⟩, ?_, by norm_num⟩
  have h : normalizeBbox (some ⟨1, 0, 1/2, 1/2⟩) =
      some ⟨clamp01 1, clamp01 0,
        max (1/100) (min (clamp01 (1/2)) (1 - clamp01 1)),
        max (1/100) (min (clamp01 (1/2)) (1 - clamp01 0))⟩ := rfl
  rw [h]
  norm_num [clamp01]

/-- C1 (amended): for a non-null bbox with `x,y ∈ [0,1]`, normalization keeps
`x,y` unchanged, gives `w,h ≥ 0.01`, bounds `w ≤ max 0.01 (1-x)` and
`h ≤ max 0.01 (1-y)`, and the box stays inside the unit square
(`x+w ≤ 1`, `y+h ≤ 1`) provided `x ≤ 0.99` resp. `y ≤ 0.99`. -/
theorem normalizeBbox_c1_amended (b : BBox)
    (hx0 : 0 ≤ b.x) (hx1 : b.x ≤ 1) (hy0 : 0 ≤ b.y) (hy1 : b.y ≤ 1) :
    ∃ r : BBox, normalizeBbox (some b) = some r ∧
      r.x = b.x ∧ r.y = b.y ∧
      1/100 ≤ r.w ∧ 1/100 ≤ r.h ∧
      r.w ≤ max (1/100) (1 - b.x) ∧ r.h ≤ max (1/100) (1 - b.y) ∧
      (b.x ≤ 99/100 → r.x + r.w ≤ 1) ∧ (b.y ≤ 99/100 → r.y + r.h ≤ 1) := by
  have hx : clamp01 b.x = b.x := clamp01_of_mem _ hx0 hx1
  have hy : clamp01 b.y = b.y := clamp01_of_mem _ hy0 hy1
  refine ⟨⟨b.x, b.y,
      max (1/100) (min (clamp01 b.w) (1 - b.x)),
      max (1/100) (min (clamp01 b.h) (1 - b.y))⟩, ?_, rfl, rfl,
      le_max_left _ _, le_max_left _ _, ?_, ?_, ?_, ?_⟩
  · have h : normalizeBbox (some b) =
        some ⟨clamp01 b.x, clamp01 b.y,
          max (1/100) (min (clamp01 b.w) (1 - clamp01 b.x)),
          max (1/100) (min (clamp01 b.h) (1 - clamp01 b.y))⟩ := rfl
    rw [h, hx, hy]
  · exact max_le_max le_rfl (min_le_right _ _)
  · exact max_le_max le_rfl (min_le_right _ _)
  · intro hxs
    have h1 : (1:ℚ)/100 ≤ 1 - b.x := by linarith
    have : max (1/100) (min (clamp01 b.w) (1 - b.x)) ≤ 1 - b.x :=
      max_le h1 (min_le_right _ _)
    simpa using by linarith
  · intro hys
    have h1 : (1:ℚ)/100 ≤ 1 - b.y := by linarith
    have : max (1/100) (min (clamp01 b.h) (1 - b.y)) ≤ 1 - b.y :=
      max_le h1 (min_le_right _ _)
    simpa using by linarith

/-- C1 (amended) witness at the concrete box `{x: 1/2, y: 1/2, w: 2, h: 0}`. -/
theorem normalizeBbox_c1_amended_witness :
    ∃ r : BBox, normalizeBbox (some ⟨1/2, 1/2, 2, 0⟩) = some r ∧
      r.x = (1/2 : ℚ) ∧ r.y = (1/2 : ℚ) ∧
      1/100 ≤ r.w ∧ 1/100 ≤ r.h ∧
      r.w ≤ max (1/100) (1 - (1/2 : ℚ)) ∧ r.h ≤ max (1/100) (1 - (1/2 : ℚ)) ∧
      ((1/2 : ℚ) ≤ 99/100 → r.x + r.w ≤ 1) ∧
      ((1/2 : ℚ) ≤ 99/100 → r.y + r.h ≤ 1) := by
  have h := normalizeBbox_c1_amended ⟨1/2, 1/2, 2, 0⟩
    (by norm_num) (by norm_num) (by norm_num) (by norm_num)
  simpa using h

/-- Arch type enum from `contracts.ts`. -/
inductive ArchType where
  | flat | normal | high | unknown
  deriving DecidableEq, Repr

/-- Usage enum from `contracts.ts`. -/
inductive Usage where
  | road | trail | treadmill | casual | racing
  deriving DecidableEq, Repr

/-- String value of an `ArchType`, as it appears in the TypeScript union. -/
def archTypeStr : ArchType → String
  | .flat => "flat"
  | .normal => "normal"
  | .high => "high"
  | .unknown => "unknown"

/-- String value of a `Usage`, as it appears in the TypeScript union. -/
def usageStr : Usage → String
  | .road => "road"
  | .trail => "trail"
  | .treadmill => "treadmill"
  | .casual => "casual"
  | .racing => "racing"

/-- Error entry `{ code, message }` attached to results. -/
structure ErrorEntry where
  code : String
  message : String
  deriving DecidableEq, Repr

inductive Lighting where
  | good | ok | bad
  deriving DecidableEq, Repr

inductive Blur where
  | none | mild | high
  deriving DecidableEq, Repr

inductive Occlusion where
  | none | some | heavy
  deriving DecidableEq, Repr

/-- Image quality block of a vision result. -/
structure ImageQuality where
  lighting : Lighting
  blur : Blur
  occlusion : Occlusion
  deriving DecidableEq, Repr

/-- One detected shoe candidate, from `contracts.ts`. -/
structure VisionCandidate where
  raw_label : String
  brand : Option String
  model : Option String
  confidence : ℚ
  bbox : Option BBox
  notes : Option String := none
  deriving DecidableEq, Repr

/-- Vision stage result, from `contracts.ts`. -/
structure VisionResult where
  request_id : String
  candidates : List VisionCandidate
  image_quality : ImageQuality
  errors : List ErrorEntry
  deriving DecidableEq, Repr

/-- Message of the `VISION_PARTIAL_BBOX` advisory for a given count, from
`openai.ts` (template literal on `missingBboxCount`). -/
def missingBboxMsg (m : ℕ) : String :=
  s!"{m} candidate(s) missing bbox due to ambiguity or occlusion."

/-- Embeds `normalizeVisionResult` from `openai.ts`: normalize every bbox,
then append a `VISION_PARTIAL_BBOX` advisory if any candidate still has a
null bbox, carrying the count in the message. -/
def normalizeVisionResult (result : VisionResult) : VisionResult :=
  let candidates := result.candidates.map fun candidate =>
    { candidate with bbox := normalizeBbox candidate.bbox }
  let missingBboxCount := (candidates.filter fun candidate => candidate.bbox.isNone).length
  let errors := result.errors ++
    (if 0 < missingBboxCount then
      [⟨"VISION_PARTIAL_BBOX", missingBboxMsg missingBboxCount⟩]
     else [])
  { result with candidates := candidates, errors := errors }

/-- User profile consumed by the ranking stage. -/
structure UserProfile where
  arch_type : ArchType
  usage : Usage
  weekly_mileage : ℚ
  deriving DecidableEq, Repr

/-- Shape of the candidates parameter of `runRanking`. -/
structure RankCandidate where
  brand : Option String
  model : Option String
  raw_label : String
  confidence : ℚ
  deriving DecidableEq, Repr

/-- Nullable spec block of a ranked recommendation. -/
structure ShoeSpecs where
  terrain : Option String
  stability : Option String
  drop_mm : Option ℚ
  weight_g : Option ℚ
  cushion : Option String
  deriving DecidableEq, Repr

/-- One ranked recommendation, from `contracts.ts`. -/
structure RankedRecommendation where
  model : String
  match_score : ℚ
  why : List String
  specs : ShoeSpecs
  tradeoffs : List String
  confidence : ℚ
  deriving DecidableEq, Repr

/-- One avoid entry, from `contracts.ts`. -/
structure AvoidEntry where
  model : String
  reason : String
  confidence : ℚ
  deriving DecidableEq, Repr

/-- Ranking stage result, from `contracts.ts`. -/
structure RecommendationsResult where
  request_id : String
  profile_used : UserProfile
  ranked : List RankedRecommendation
  avoid : List AvoidEntry
  fallback_needed : Bool
  errors : List ErrorEntry
  deriving DecidableEq, Repr

/-- Range check `lo ≤ q ≤ hi` as a boolean, mirroring zod `.min().max()`. -/
def qInRange (lo hi q : ℚ) : Bool := decide (lo ≤ q) && decide (q ≤ hi)

/-- Checks one `ranked` entry against `RankingSchema` from `openai.ts`:
`match_score ∈ [0,100]`, `why` length in `[1,6]`, `tradeoffs` length `≤ 6`,
`confidence ∈ [0,1]`. String and nullability constraints hold by typing. -/
def rankedItemValid (r : RankedRecommendation) : Bool :=
  qInRange 0 100 r.match_score &&
  decide (1 ≤ r.why.length) && decide (r.why.length ≤ 6) &&
  decide (r.tradeoffs.length ≤ 6) &&
  qInRange 0 1 r.confidence

/-- Checks a typed `RecommendationsResult` against `RankingSchema` from
`openai.ts` (`RankingSchema.safeParse(mock).success`). The enum, string,
boolean and nullability constraints are discharged by the embedding's types;
the remaining zod constraints are: `weekly_mileage` an integer `≥ 0`,
`ranked` length `≤ 5` with each entry valid, `avoid` length `≤ 5` with each
confidence in `[0,1]`. -/
def rankingValid (r : RecommendationsResult) : Bool :=
  decide (r.profile_used.weekly_mileage.den = 1) &&
  decide (0 ≤ r.profile_used.weekly_mileage) &&
  decide (r.ranked.length ≤ 5) && r.ranked.all rankedItemValid &&
  decide (r.avoid.length ≤ 5) && r.avoid.all (fun a => qInRange 0 1 a.confidence)

/-- Configuration the core reads from the environment:
mock flags, whether an API key is configured, and `VISION_MAX_CANDIDATES`. -/
structure AiConfig where
  mockVision : Bool
  mockRanking : Bool
  openaiConfigured : Bool
  visionMaxCandidates : ℕ
  deriving DecidableEq, Repr

/-- A thrown JavaScript exception: optional HTTP status and a message. -/
structure JsErr where
  status : Option ℤ
  message : String
  deriving DecidableEq, Repr

/-- Argument record of `runRanking` from `openai.ts`. -/
structure RankingArgs where
  requestId : String
  profile : UserProfile
  candidates : List RankCandidate
  specsByName : List (String × ShoeSpecs)
  visionFailed : Bool
  deriving Repr

/-- JavaScript template interpolation of a `string | null` value. -/
def jsStr (o : Option String) : String := o.getD "null"

/-- One entry of the mock ranked list built by `runRanking` for candidate `c`
at rank position `i`: score `90 - i*8`, heuristic `why` lines, fixed specs. -/
def mockRankedEntry (profile : UserProfile) (i : ℕ) (c : RankCandidate) :
    RankedRecommendation :=
  let brandStr := jsStr c.brand
  let modelStr := jsStr c.model
  let usage := usageStr profile.usage
  let arch := archTypeStr profile.arch_type
  { model := s!"{brandStr} {modelStr}",
    match_score := 90 - (i : ℚ) * 8,
    why := [s!"Matches {usage} usage", s!"Heuristic match for {arch} arch"],
    specs := { terrain := some usage,
               stability := some (if profile.arch_type = ArchType.flat then "stable" else "neutral"),
               drop_mm := some 8, weight_g := some 290, cushion := some "medium" },
    tradeoffs := ["Mock tradeoff"],
    confidence := 13/20 }

/-- Embeds `runRanking` from `openai.ts`. The `Except` codomain records that
the function could in principle throw; every return path is `.ok`. The
`MOCK_RANK_SCHEMA_INVALID` message in the source is zod's dynamic error
message; it is abstracted to a fixed string here (no claim inspects it). -/
def runRanking (cfg : AiConfig) (args : RankingArgs) :
    Except JsErr RecommendationsResult :=
  if args.visionFailed then
    .ok { request_id := args.requestId, profile_used := args.profile,
          ranked := [], avoid := [], fallback_needed := true,
          errors := [⟨"VISION_UNAVAILABLE",
                      "Automatic shoe detection unavailable. Use manual search."⟩] }
  else if cfg.mockRanking || !cfg.openaiConfigured then
    let ranked :=
      (((args.candidates.filter fun c => jsTruthy c.brand && jsTruthy c.model).take 3).enum).map
        fun p => mockRankedEntry args.profile p.1 p.2
    let mock : RecommendationsResult :=
      { request_id := args.requestId, profile_used := args.profile,
        ranked := ranked, avoid := [],
        fallback_needed := decide (ranked.length = 0), errors := [] }
    if rankingValid mock then .ok mock
    else
      .ok { request_id := args.requestId, profile_used := args.profile,
            ranked := [], avoid := [], fallback_needed := true,
            errors := [⟨"MOCK_RANK_SCHEMA_INVALID",
                        "Mock ranking payload failed schema validation."⟩] }
  else
    .ok { request_id := args.requestId, profile_used := args.profile,
          ranked := [], avoid := [], fallback_needed := true,
          errors := [⟨"RANKING_NOT_ENABLED", "Real ranking not enabled yet."⟩] }

/-- C2: with `visionFailed = true`, `runRanking` short-circuits, for every
configuration (so no upstream call can be involved), to the fixed result:
`fallback_needed = true`, empty `ranked`/`avoid`, the given request id, and
exactly one error, whose code is `VISION_UNAVAILABLE`. -/
theorem runRanking_visionFailed_c2 (cfg : AiConfig) (args : RankingArgs)
    (h : args.visionFailed = true) :
    runRanking cfg args =
      .ok { request_id := args.requestId, profile_used := args.profile,
            ranked := [], avoid := [], fallback_needed := true,
            errors := [⟨"VISION_UNAVAILABLE",
                        "Automatic shoe detection unavailable. Use manual search."⟩] } := by
  unfold runRanking
  rw [h]
  simp

/-- C2 witness at a concrete configuration and argument record. -/
theorem runRanking_visionFailed_c2_witness :
    runRanking ⟨true, true, true, 8⟩
      ⟨"req-1", ⟨ArchType.normal, Usage.road, 20⟩, [], [], true⟩ =
      .ok { request_id := "req-1",
            profile_used := ⟨ArchType.normal, Usage.road, 20⟩,
            ranked := [], avoid := [], fallback_needed := true,
            errors := [⟨"VISION_UNAVAILABLE",
                        "Automatic shoe detection unavailable. Use manual search."⟩] } :=
  runRanking_visionFailed_c2 ⟨true, true, true, 8⟩
    ⟨"req-1", ⟨ArchType.normal, Usage.road, 20⟩, [], [], true⟩ rfl

/-- C3: in mock mode with `visionFailed = false` and a valid profile, every
result `runRanking` returns satisfies the Ranking Schema — both the
self-validated mock object and the substitute fallback returned when
self-validation of the mock were to fail. -/
theorem runRanking_mock_schema_c3 (cfg : AiConfig) (args : RankingArgs)
    (hm : cfg.mockRanking = true ∨ cfg.openaiConfigured = false)
    (hv : args.visionFailed = false)
    (hden : args.profile.weekly_mileage.den = 1)
    (hpos : 0 ≤ args.profile.weekly_mileage) :
    ∀ r, runRanking cfg args = Except.ok r → rankingValid r = true := by
  intro r h
  have hcond : (cfg.mockRanking || !cfg.openaiConfigured) = true := by
    rcases hm with hc | hc <;> simp [hc]
  unfold runRanking at h
  rw [hv, hcond] at h
  simp only [Bool.false_eq_true, if_false, if_true] at h
  split at h
  · next hvalid =>
    cases h
    exact hvalid
  · next hvalid =>
    cases h
    simp [rankingValid, hden, hpos]

/-- C3 witness at a concrete configuration, profile and candidate list. -/
theorem runRanking_mock_schema_c3_witness :
    rankingValid
      { request_id := "req-2",
        profile_used := ⟨ArchType.normal, Usage.road, 20⟩,
        ranked := [], avoid := [], fallback_needed := true, errors := [] } = true := by
  refine runRanking_mock_schema_c3 ⟨true, true, true, 8⟩
    ⟨"req-2", ⟨ArchType.normal, Usage.road, 20⟩, [], [], false⟩
    (Or.inl rfl) rfl (by norm_num) (by norm_num) _ ?_
  rfl

/-- C10: in mock mode with `visionFailed = false` and a valid profile, if no
candidate carries both a non-null brand and a non-null model, `runRanking`
returns `fallback_needed = true` with empty `ranked`, `avoid` and — notably —
an empty `errors` array: nothing explains the fallback on this path. -/
theorem runRanking_emptyRanked_c10 (cfg : AiConfig) (args : RankingArgs)
    (hm : cfg.mockRanking = true ∨ cfg.openaiConfigured = false)
    (hv : args.visionFailed = false)
    (hden : args.profile.weekly_mileage.den = 1)
    (hpos : 0 ≤ args.profile.weekly_mileage)
    (hnb : ∀ c ∈ args.candidates, c.brand = none ∨ c.model = none) :
    runRanking cfg args =
      Except.ok { request_id := args.requestId, profile_used := args.profile,
                  ranked := [], avoid := [], fallback_needed := true,
                  errors := [] } := by
  have hcond : (cfg.mockRanking || !cfg.openaiConfigured) = true := by
    rcases hm with hc | hc <;> simp [hc]
  have hfilter :
      (args.candidates.filter fun c => jsTruthy c.brand && jsTruthy c.model) = [] := by
    rw [List.filter_eq_nil_iff]
    intro c hc
    rcases hnb c hc with h | h <;> simp [jsTruthy, h]
  unfold runRanking
  rw [hv, hcond]
  simp only [Bool.false_eq_true, if_false, if_true, hfilter]
  simp [rankingValid, hden, hpos]

/-- C10 witness: one candidate with a brand but no model. -/
theorem runRanking_emptyRanked_c10_witness :
    runRanking ⟨true, true, true, 8⟩
      ⟨"req-3", ⟨ArchType.flat, Usage.trail, 10⟩,
       [⟨some "Nike", none, "Nike something", 1/2⟩], [], false⟩ =
      Except.ok { request_id := "req-3",
                  profile_used := ⟨ArchType.flat, Usage.trail, 10⟩,
                  ranked := [], avoid := [], fallback_needed := true,
                  errors := [] } := by
  refine runRanking_emptyRanked_c10 ⟨true, true, true, 8⟩
    ⟨"req-3", ⟨ArchType.flat, Usage.trail, 10⟩,
     [⟨some "Nike", none, "Nike something", 1/2⟩], [], false⟩
    (Or.inl rfl) rfl (by norm_num) (by norm_num) ?_
  intro c hc
  simp at hc
  rw [hc]
  exact Or.inr rfl

theorem normalizeBbox_isNone (b : Option BBox) :
    (normalizeBbox b).isNone = b.isNone := by
  cases b <;> rfl

theorem filter_length_pos_iff {α : Type} (l : List α) (p : α → Bool) :
    0 < (l.filter p).length ↔ ∃ a ∈ l, p a = true := by
  rw [← List.countP_eq_length_filter, List.countP_pos_iff]

/-- C8: `normalizeVisionResult` preserves `request_id`, `image_quality`, and
every candidate up to bbox normalization (in order, none dropped); it keeps
the original errors as a prefix and appends exactly one `VISION_PARTIAL_BBOX`
entry carrying the null-bbox count if and only if some candidate has a null
bbox after normalization. -/
theorem normalizeVisionResult_c8 (r : VisionResult) :
    (normalizeVisionResult r).request_id = r.request_id ∧
    (normalizeVisionResult r).image_quality = r.image_quality ∧
    (normalizeVisionResult r).candidates =
      r.candidates.map (fun c => { c with bbox := normalizeBbox c.bbox }) ∧
    (normalizeVisionResult r).candidates.length = r.candidates.length ∧
    (normalizeVisionResult r).errors =
      r.errors ++
        (if 0 < (r.candidates.filter fun c => c.bbox.isNone).length then
          [⟨"VISION_PARTIAL_BBOX",
            missingBboxMsg (r.candidates.filter fun c => c.bbox.isNone).length⟩]
         else []) ∧
    ((∃ c ∈ (normalizeVisionResult r).candidates, c.bbox = none) ↔
      0 < (r.candidates.filter fun c => c.bbox.isNone).length) := by
  have hcount :
      ((r.candidates.map fun c => { c with bbox := normalizeBbox c.bbox }).filter
          fun c => c.bbox.isNone).length =
        (r.candidates.filter fun c => c.bbox.isNone).length := by
    rw [List.filter_map, List.length_map]
    congr 1
    apply List.filter_congr
    intro c _
    simp [Function.comp, normalizeBbox_isNone]
  refine ⟨rfl, rfl, rfl, by simp [normalizeVisionResult], ?_, ?_⟩
  · show r.errors ++ _ = r.errors ++ _
    rw [hcount]
  · rw [← hcount]
    rw [filter_length_pos_iff]
    constructor
    · rintro ⟨c, hc, hb⟩
      exact ⟨c, hc, by simp [hb]⟩
    · rintro ⟨c, hc, hb⟩
      exact ⟨c, hc, Option.isNone_iff_eq_none.mp hb⟩

/-- Exact decimal number `mant * 10 ^ exp10`, the value of a JSON number
literal. Kept in this unreduced form so that parsing is exact and reduces
definitionally (two parses of the same text give the same `JNum`). -/
structure JNum where
  mant : ℤ
  exp10 : ℤ
  deriving DecidableEq, Repr

/-- Rational value of a parsed JSON number. -/
def jnumToRat (n : JNum) : ℚ :=
  if 0 ≤ n.exp10 then (n.mant : ℚ) * (10 : ℚ) ^ n.exp10.toNat
  else (n.mant : ℚ) / (10 : ℚ) ^ (-n.exp10).toNat

/-- JSON values as produced by `JSON.parse`. Object fields are kept in
insertion order; lookups take the first occurrence of a key (JavaScript
object keys are unique, and `JSON.parse` collapses duplicates). -/
inductive JsonValue where
  | null
  | bool (b : Bool)
  | num (n : JNum)
  | str (s : List Char)
  | arr (elems : List JsonValue)
  | obj (fields : List (List Char × JsonValue))

/-- Characters of a string literal, for JSON keys and texts. -/
def strL (s : String) : List Char := s.toList

/-- JSON whitespace. -/
def isJsonWs (c : Char) : Bool :=
  c = ' ' || c = '\t' || c = '\n' || Char.ofNat 13 = c

/-- Drops leading JSON whitespace. -/
def skipWs : List Char → List Char
  | [] => []
  | c :: cs => if isJsonWs c then skipWs cs else c :: cs

/-- Value of a digit run, most significant first. -/
def digitsToNat (ds : List Char) : ℕ :=
  ds.foldl (fun a c => a * 10 + (c.toNat - 48)) 0

/-- Value of a hexadecimal digit. -/
def hexVal (c : Char) : Option ℕ :=
  if c.isDigit then some (c.toNat - 48)
  else if 'a' ≤ c ∧ c ≤ 'f' then some (c.toNat - 87)
  else if 'A' ≤ c ∧ c ≤ 'F' then some (c.toNat - 55)
  else none

/-- Exponent suffix of a JSON number: optional sign and a digit run. -/
def parseExp (l : List Char) : Option (ℤ × List Char) :=
  let (eneg, l1) :=
    match l with
    | '+' :: rest => (false, rest)
    | '-' :: rest => (true, rest)
    | _ => (false, l)
  let ed := l1.takeWhile Char.isDigit
  if ed.isEmpty then none
  else
    let e : ℤ := (digitsToNat ed : ℤ)
    some (if eneg then -e else e, l1.dropWhile Char.isDigit)

/-- A JSON number per the JSON grammar: optional minus, integer part with no
leading zero, optional fraction, optional exponent. The digits of the integer
and fractional parts concatenate into the mantissa. -/
def parseNumber (l : List Char) : Option (JNum × List Char) := do
  let (neg, l1) :=
    match l with
    | '-' :: rest => (true, rest)
    | _ => (false, l)
  let intDigits := l1.takeWhile Char.isDigit
  let l2 := l1.dropWhile Char.isDigit
  if intDigits.isEmpty then none
  else if intDigits.head? = some '0' && decide (1 < intDigits.length) then none
  else do
    let (fd, l3) ←
      match l2 with
      | '.' :: rest =>
        let fd := rest.takeWhile Char.isDigit
        if fd.isEmpty then none
        else some (fd, rest.dropWhile Char.isDigit)
      | _ => some (([] : List Char), l2)
    let (e, l4) ←
      match l3 with
      | 'e' :: rest => parseExp rest
      | 'E' :: rest => parseExp rest
      | _ => some ((0 : ℤ), l3)
    let mant0 : ℤ := (digitsToNat (intDigits ++ fd) : ℤ)
    some (⟨if neg then -mant0 else mant0, e - fd.length⟩, l4)

/-- A JSON escape character after a backslash (other than `u`). -/
def escapeChar : Char → Option Char
  | '"' => some '"'
  | '\\' => some '\\'
  | '/' => some '/'
  | 'b' => some (Char.ofNat 8)
  | 'f' => some (Char.ofNat 12)
  | 'n' => some '\n'
  | 'r' => some (Char.ofNat 13)
  | 't' => some '\t'
  | _ => none

/-- Body of a JSON string after the opening quote; returns the decoded
characters and the remainder after the closing quote. -/
def parseStringBody : List Char → Option (List Char × List Char)
  | [] => none
  | '"' :: rest => some ([], rest)
  | '\\' :: 'u' :: h1 :: h2 :: h3 :: h4 :: rest => do
    let v1 ← hexVal h1
    let v2 ← hexVal h2
    let v3 ← hexVal h3
    let v4 ← hexVal h4
    let (s, r) ← parseStringBody rest
    some (Char.ofNat (((v1 * 16 + v2) * 16 + v3) * 16 + v4) :: s, r)
  | '\\' :: e :: rest => do
    let c ← escapeChar e
    let (s, r) ← parseStringBody rest
    some (c :: s, r)
  | c :: rest =>
    if c.toNat < 32 then none
    else do
      let (s, r) ← parseStringBody rest
      some (c :: s, r)

/-- Parsing mode of the fuel-indexed JSON parser: a single value, the items
of an array after the opening bracket, or the fields of an object after the
opening brace. -/
inductive PMode where
  | value | items | fields

/-- Fuel-indexed recursive-descent JSON parser (one function so it is
structurally recursive on the fuel and reduces definitionally). In `items`
mode it returns the parsed `.arr`, in `fields` mode the parsed `.obj`. -/
def parseCore : ℕ → PMode → List Char → Option (JsonValue × List Char)
  | 0, _, _ => none
  | fuel + 1, .value, l =>
    match skipWs l with
    | 'n' :: 'u' :: 'l' :: 'l' :: rest => some (.null, rest)
    | 't' :: 'r' :: 'u' :: 'e' :: rest => some (.bool true, rest)
    | 'f' :: 'a' :: 'l' :: 's' :: 'e' :: rest => some (.bool false, rest)
    | '"' :: rest => do
      let (s, r) ← parseStringBody rest
      some (.str s, r)
    | '[' :: rest =>
      (match skipWs rest with
       | ']' :: r2 => some (.arr [], r2)
       | _ => parseCore fuel .items rest)
    | '{' :: rest =>
      (match skipWs rest with
       | '}' :: r2 => some (.obj [], r2)
       | _ => parseCore fuel .fields rest)
    | l2 => do
      let (q, r) ← parseNumber l2
      some (.num q, r)
  | fuel + 1, .items, l => do
    let (v, r) ← parseCore fuel .value l
    match skipWs r with
    | ',' :: r2 => do
      let (vs, r3) ← parseCore fuel .items r2
      match vs with
      | .arr vs2 => some (.arr (v :: vs2), r3)
      | _ => none
    | ']' :: r2 => some (.arr [v], r2)
    | _ => none
  | fuel + 1, .fields, l =>
    match skipWs l with
    | '"' :: rest => do
      let (k, r) ← parseStringBody rest
      match skipWs r with
      | ':' :: r2 => do
        let (v, r3) ← parseCore fuel .value r2
        match skipWs r3 with
        | ',' :: r4 => do
          let (fs, r5) ← parseCore fuel .fields r4
          match fs with
          | .obj fs2 => some (.obj ((k, v) :: fs2), r5)
          | _ => none
        | '}' :: r4 => some (.obj [(k, v)], r4)
        | _ => none
      | _ => none
    | _ => none

/-- Embeds `JSON.parse`: parse one value and require only whitespace after it;
`none` models a thrown `SyntaxError`. -/
def parseJson (text : List Char) : Option JsonValue :=
  match parseCore (text.length + 1) PMode.value text with
  | some (v, rest) => if (skipWs rest).isEmpty then some v else none
  | none => none

/-- JavaScript `indexOf` for a character, as an optional index. -/
def indexOfChar (c : Char) : List Char → Option ℕ
  | [] => none
  | a :: as => if a = c then some 0 else (indexOfChar c as).map (· + 1)

/-- JavaScript `lastIndexOf` for a character, as an optional index. -/
def lastIndexOfChar (c : Char) (l : List Char) : Option ℕ :=
  (indexOfChar c l.reverse).map (fun i => l.length - 1 - i)

/-- JavaScript `slice(s, e)` on a character list (in-range indices). -/
def jsSlice (l : List Char) (s e : ℕ) : List Char := (l.take e).drop s

/-- Embeds `safeParseJsonFromModel` from `openai.ts`: try a full parse; on
failure parse the substring from the first brace to the last closing brace
(inclusive) when `first >= 0 && last > first`; otherwise (or when that parse
also fails and its `SyntaxError` propagates) the thrown error is the result. -/
def safeParseJsonFromModel (text : List Char) : Except String JsonValue :=
  match parseJson text with
  | some v => .ok v
  | none =>
    match indexOfChar '{' text, lastIndexOfChar '}' text with
    | some first, some last =>
      if first < last then
        match parseJson (jsSlice text first (last + 1)) with
        | some v => .ok v
        | none => .error "SyntaxError: Unexpected token"
      else .error "Model output is not valid JSON"
    | _, _ => .error "Model output is not valid JSON"

/-- True when the value is a JSON object. -/
def isObjValue : JsonValue → Bool
  | .obj _ => true
  | _ => false

/-- True when some contiguous substring parses as a JSON object; used to state
that a prose fragment contains no embedded JSON object. -/
def hasJsonObjectSubstring (l : List Char) : Bool :=
  (List.range (l.length + 1)).any fun i =>
    (List.range (l.length + 1)).any fun j =>
      match parseJson ((l.take j).drop i) with
      | some w => isObjValue w
      | none => false

theorem indexOfChar_append_of_not_mem (c : Char) (p l : List Char) (hp : c ∉ p) :
    indexOfChar c (p ++ l) = (indexOfChar c l).map (· + p.length) := by
  induction p with
  | nil =>
    simp only [List.nil_append, List.length_nil]
    cases indexOfChar c l <;> simp
  | cons a as ih =>
    have ha : a ≠ c := fun h => hp (by simp [h])
    have has : c ∉ as := fun h => hp (List.mem_cons_of_mem _ h)
    rw [List.cons_append]
    show (if a = c then some 0 else (indexOfChar c (as ++ l)).map (· + 1)) = _
    rw [if_neg ha, ih has]
    cases indexOfChar c l with
    | none => rfl
    | some i =>
      simp only [Option.map_some', List.length_cons, Option.some.injEq]
      omega

theorem indexOfChar_cons_self (c : Char) (l : List Char) :
    indexOfChar c (c :: l) = some 0 := by
  simp [indexOfChar]

theorem firstBrace_of_decomp (p1 obj p2 : List Char) (hp1 : '{' ∉ p1)
    (hhead : obj.head? = some '{') :
    indexOfChar '{' (p1 ++ obj ++ p2) = some p1.length := by
  obtain ⟨o, rfl⟩ : ∃ o, obj = '{' :: o := by
    cases obj with
    | nil => simp at hhead
    | cons a o =>
      simp only [List.head?_cons, Option.some.injEq] at hhead
      exact ⟨o, by rw [hhead]⟩
  rw [List.append_assoc, indexOfChar_append_of_not_mem _ _ _ hp1,
    List.cons_append, indexOfChar_cons_self]
  simp

theorem lastBrace_of_decomp (p1 obj p2 : List Char) (hp2 : '}' ∉ p2)
    (hlast : obj.getLast? = some '}') :
    lastIndexOfChar '}' (p1 ++ obj ++ p2) = some (p1.length + obj.length - 1) := by
  unfold lastIndexOfChar
  obtain ⟨o, ho⟩ : ∃ o, obj.reverse = '}' :: o := by
    have h1 : obj.reverse.head? = some '}' := by
      rw [List.head?_reverse]; exact hlast
    cases hrx : obj.reverse with
    | nil => rw [hrx] at h1; simp at h1
    | cons a o =>
      rw [hrx] at h1
      simp only [List.head?_cons, Option.some.injEq] at h1
      exact ⟨o, by rw [h1]⟩
  have hrev : (p1 ++ obj ++ p2).reverse = p2.reverse ++ (obj.reverse ++ p1.reverse) := by
    simp
  have hnp2 : '}' ∉ p2.reverse := by simpa using hp2
  have hobjlen : obj.length = o.length + 1 := by
    rw [← List.length_reverse, ho, List.length_cons]
  rw [hrev, indexOfChar_append_of_not_mem _ _ _ hnp2, ho, List.cons_append,
    indexOfChar_cons_self]
  simp only [Option.map_some', Option.some.injEq, List.length_append,
    List.length_reverse]
  omega

theorem jsSlice_decomp (p1 obj p2 : List Char) :
    jsSlice (p1 ++ obj ++ p2) p1.length (p1.length + obj.length) = obj := by
  unfold jsSlice
  have h1 : ((p1 ++ obj) ++ p2).take (p1.length + obj.length) = p1 ++ obj :=
    List.take_left' (by simp)
  rw [h1, List.drop_left]

/-- C4 (amended): for a text `p1 ++ obj ++ p2` where `obj` is a well-formed
JSON object string (opening with a brace, closing with one, parsing to `v`),
the prose before contains no opening brace and the prose after no closing
brace, `safeParseJsonFromModel` returns exactly the value of directly parsing
the embedded object substring when the full text is not itself valid JSON;
when the full text is valid JSON it returns the full parse. -/
theorem safeParseJsonFromModel_c4_amended (p1 obj p2 : List Char) (v : JsonValue)
    (hp1 : '{' ∉ p1) (hp2 : '}' ∉ p2)
    (hhead : obj.head? = some '{') (hlast : obj.getLast? = some '}')
    (hobj : parseJson obj = some v) :
    (parseJson (p1 ++ obj ++ p2) = none →
      safeParseJsonFromModel (p1 ++ obj ++ p2) = .ok v) ∧
    (∀ w, parseJson (p1 ++ obj ++ p2) = some w →
      safeParseJsonFromModel (p1 ++ obj ++ p2) = .ok w) := by
  constructor
  · intro hfull
    have hfirst := firstBrace_of_decomp p1 obj p2 hp1 hhead
    have hlast2 := lastBrace_of_decomp p1 obj p2 hp2 hlast
    have hlen2 : 2 ≤ obj.length := by
      cases obj with
      | nil => simp at hhead
      | cons a o =>
        cases o with
        | nil =>
          simp only [List.head?_cons, Option.some.injEq] at hhead
          simp only [List.getLast?_singleton, Option.some.injEq] at hlast
          rw [hhead] at hlast
          exact absurd hlast (by decide)
        | cons b o2 => simp [List.length_cons]
    have hlt : p1.length < p1.length + obj.length - 1 := by omega
    have hidx : p1.length + obj.length - 1 + 1 = p1.length + obj.length := by omega
    simp only [safeParseJsonFromModel, hfull, hfirst, hlast2]
    rw [if_pos hlt, hidx, jsSlice_decomp, hobj]
  · intro w hw
    simp only [safeParseJsonFromModel, hw]

/-- Prose fragment of the C4 counterexample: an opening brace and a space. -/
def c4prose : List Char := strL "\x7b "

/-- Well-formed embedded JSON object of the C4 counterexample. -/
def c4obj : List Char := strL "\x7b\"a\":1\x7d"

/-- Counterexample text: prose with a stray opening brace before the object. -/
def c4text : List Char := c4prose ++ c4obj

/-- C4: the claim as stated is false. The text `c4text` contains exactly one
well-formed JSON object (`c4obj`; the surrounding prose contains none), yet
`safeParseJsonFromModel` throws instead of returning the value of directly
parsing the embedded object substring: the first-brace/last-brace recovery
slice picks up the stray brace of the prose. -/
theorem safeParseJsonFromModel_c4_counterexample :
    (c4text = c4prose ++ c4obj ++ [] ∧
     c4obj.head? = some '{' ∧ c4obj.getLast? = some '}' ∧
     parseJson c4obj = some (JsonValue.obj [(strL "a", JsonValue.num ⟨1, 0⟩)]) ∧
     hasJsonObjectSubstring c4prose = false ∧
     hasJsonObjectSubstring ([] : List Char) = false) ∧
    safeParseJsonFromModel c4text = .error "SyntaxError: Unexpected token" := by
  refine ⟨⟨by simp [c4text], rfl, rfl, rfl, rfl, rfl⟩, rfl⟩

/-- C4 (amended) witness: prose around the object with no stray braces. -/
theorem safeParseJsonFromModel_c4_amended_witness :
    safeParseJsonFromModel (strL "noise: " ++ c4obj ++ strL " end") =
      .ok (JsonValue.obj [(strL "a", JsonValue.num ⟨1, 0⟩)]) := by
  have h := safeParseJsonFromModel_c4_amended (strL "noise: ") c4obj (strL " end")
    (JsonValue.obj [(strL "a", JsonValue.num ⟨1, 0⟩)])
    (by decide) (by decide) rfl rfl rfl
  exact h.1 rfl

/-- First-occurrence lookup of a key in a JSON object's fields. -/
def jLookup (k : List Char) : List (List Char × JsonValue) → Option JsonValue
  | [] => none
  | (k2, v) :: rest => if k2 = k then some v else jLookup k rest

/-- JavaScript `{...fields, k: v}`: replace the value at an existing key or
append a new binding (iteration order of the other keys is irrelevant to
validation, which proceeds by lookup). -/
def setKey (fields : List (List Char × JsonValue)) (k : List Char) (v : JsonValue) :
    List (List Char × JsonValue) :=
  if fields.any (fun p => p.1 = k) then
    fields.map (fun p => if p.1 = k then (k, v) else p)
  else fields ++ [(k, v)]

/-- Patch of one detection candidate from `patchVisionPayload` in `openai.ts`:
non-objects pass through; otherwise `bbox` is set to `candidate.bbox ?? null`
(the nullish coalescing turns a missing or null `bbox` into an explicit
`null` and keeps any other value). -/
def patchCandidate (candidate : JsonValue) : JsonValue :=
  match candidate with
  | .obj f =>
    let bboxVal :=
      match jLookup (strL "bbox") f with
      | none => JsonValue.null
      | some JsonValue.null => JsonValue.null
      | some v => v
    .obj (setKey f (strL "bbox") bboxVal)
  | v => v

/-- Embeds `patchVisionPayload` from `openai.ts`: on an object whose
`candidates` value is an array, patch every candidate; all other values pass
through unchanged. (The JavaScript spread of a non-object such as an array
would produce an index-keyed object; either way such a payload fails the
schema below, so the pass-through is observationally faithful.) -/
def patchVisionPayload (raw : JsonValue) : JsonValue :=
  match raw with
  | .obj fields =>
    match jLookup (strL "candidates") fields with
    | some (.arr cs) =>
      .obj (setKey fields (strL "candidates") (.arr (cs.map patchCandidate)))
    | _ => .obj fields
  | v => v

/-- zod `z.string()` on a JSON value. -/
def isStrVal : JsonValue → Bool
  | .str _ => true
  | _ => false

/-- zod `z.string().nullable()` on a JSON value. -/
def isNullableStrVal : JsonValue → Bool
  | .str _ => true
  | .null => true
  | _ => false

/-- Exact check that a parsed JSON number lies in `[0, 1]`
(zod `z.number().min(0).max(1)`). -/
def jnum01 (n : JNum) : Bool :=
  decide (0 ≤ n.mant) &&
  (if 0 ≤ n.exp10 then decide (n.mant * 10 ^ n.exp10.toNat ≤ 1)
   else decide (n.mant ≤ 10 ^ (-n.exp10).toNat))

/-- zod `z.number().min(0).max(1)` on a JSON value. -/
def isNum01Val : JsonValue → Bool
  | .num n => jnum01 n
  | _ => false

/-- Required field of string type. -/
def fieldStr (f : List (List Char × JsonValue)) (k : String) : Bool :=
  match jLookup (strL k) f with
  | some v => isStrVal v
  | none => false

/-- Required field of nullable string type. -/
def fieldNullableStr (f : List (List Char × JsonValue)) (k : String) : Bool :=
  match jLookup (strL k) f with
  | some v => isNullableStrVal v
  | none => false

/-- Required numeric field constrained to `[0, 1]`. -/
def fieldNum01 (f : List (List Char × JsonValue)) (k : String) : Bool :=
  match jLookup (strL k) f with
  | some v => isNum01Val v
  | none => false

/-- Required string field constrained to an enum of values. -/
def fieldEnum (f : List (List Char × JsonValue)) (k : String) (vals : List String) : Bool :=
  match jLookup (strL k) f with
  | some (.str s) => vals.any (fun t => strL t = s)
  | _ => false

/-- The `bbox` object schema of `VisionSchema`: `x,y,w,h` numbers in `[0,1]`. -/
def jBBoxValid (b : List (List Char × JsonValue)) : Bool :=
  fieldNum01 b "x" && fieldNum01 b "y" && fieldNum01 b "w" && fieldNum01 b "h"

/-- The error entry schema: `code` and `message` strings. -/
def jErrorEntryValid : JsonValue → Bool
  | .obj f => fieldStr f "code" && fieldStr f "message"
  | _ => false

/-- The candidate schema of `VisionSchema` in `openai.ts`. With
`requireBbox = true` this is the strict schema (the `bbox` key must be
present, null or a valid box); with `requireBbox = false` the `bbox` key may
also be absent, which states "conforms to the Detection Schema except that
the candidate lacks the bbox key". `notes` is optional nullable either way. -/
def jCandidateValid (requireBbox : Bool) : JsonValue → Bool
  | .obj f =>
    fieldStr f "raw_label" &&
    fieldNullableStr f "brand" &&
    fieldNullableStr f "model" &&
    fieldNum01 f "confidence" &&
    (match jLookup (strL "bbox") f with
     | some JsonValue.null => true
     | some (.obj b) => jBBoxValid b
     | some _ => false
     | none => !requireBbox) &&
    (match jLookup (strL "notes") f with
     | none => true
     | some JsonValue.null => true
     | some (.str _) => true
     | some _ => false)
  | _ => false

/-- Embeds `VisionSchema` from `openai.ts` as a boolean validator on parsed
JSON (`VisionSchema.safeParse(json).success`): `request_id` string,
`candidates` an array of at most `nmax` valid candidates, `image_quality`
with the three quality enums, `errors` an array of error entries. Unknown
keys are stripped by zod, hence ignored here. -/
def jVisionValid (nmax : ℕ) (requireBbox : Bool) (v : JsonValue) : Bool :=
  match v with
  | .obj f =>
    fieldStr f "request_id" &&
    (match jLookup (strL "candidates") f with
     | some (.arr cs) => decide (cs.length ≤ nmax) && cs.all (jCandidateValid requireBbox)
     | _ => false) &&
    (match jLookup (strL "image_quality") f with
     | some (.obj q) =>
       fieldEnum q "lighting" ["good", "ok", "bad"] &&
       fieldEnum q "blur" ["none", "mild", "high"] &&
       fieldEnum q "occlusion" ["none", "some", "heavy"]
     | _ => false) &&
    (match jLookup (strL "errors") f with
     | some (.arr es) => es.all jErrorEntryValid
     | _ => false)
  | _ => false

theorem jLookup_map_replace (f : List (List Char × JsonValue)) (k : List Char)
    (v : JsonValue) (hany : f.any (fun p => p.1 = k) = true) :
    jLookup k (f.map fun p => if p.1 = k then (k, v) else p) = some v := by
  induction f with
  | nil => simp at hany
  | cons p rest ih =>
    obtain ⟨kk, vv⟩ := p
    simp only [List.map_cons]
    by_cases hp : kk = k
    · subst hp
      show jLookup kk ((if kk = kk then (kk, v) else (kk, vv)) :: _) = some v
      rw [if_pos rfl]
      show (if kk = kk then some v else _) = some v
      rw [if_pos rfl]
    · have hrest : rest.any (fun p => p.1 = k) = true := by
        simp only [List.any_cons, Bool.or_eq_true, decide_eq_true_eq] at hany
        rcases hany with h | h
        · exact absurd h hp
        · exact h
      show jLookup k ((if kk = k then (k, v) else (kk, vv)) :: _) = some v
      rw [if_neg hp]
      show (if kk = k then some vv else _) = some v
      rw [if_neg hp]
      exact ih hrest

theorem jLookup_map_replace_ne (f : List (List Char × JsonValue)) (k k2 : List Char)
    (v : JsonValue) (hne : k2 ≠ k) :
    jLookup k2 (f.map fun p => if p.1 = k then (k, v) else p) = jLookup k2 f := by
  induction f with
  | nil => rfl
  | cons p rest ih =>
    obtain ⟨kk, vv⟩ := p
    simp only [List.map_cons]
    by_cases hp : kk = k
    · subst hp
      show jLookup k2 ((if kk = kk then (kk, v) else (kk, vv)) :: _) = _
      rw [if_pos rfl]
      show (if kk = k2 then some v else _) =
        (if kk = k2 then some vv else jLookup k2 rest)
      rw [if_neg (fun h => hne h.symm), if_neg (fun h => hne h.symm)]
      exact ih
    · show jLookup k2 ((if kk = k then (k, v) else (kk, vv)) :: _) = _
      rw [if_neg hp]
      show (if kk = k2 then some vv else _) =
        (if kk = k2 then some vv else jLookup k2 rest)
      by_cases hk2 : kk = k2
      · rw [if_pos hk2, if_pos hk2]
      · rw [if_neg hk2, if_neg hk2]
        exact ih

theorem jLookup_any_false (f : List (List Char × JsonValue)) (k : List Char)
    (h : f.any (fun p => p.1 = k) = false) : jLookup k f = none := by
  induction f with
  | nil => rfl
  | cons p rest ih =>
    obtain ⟨kk, vv⟩ := p
    simp only [List.any_cons, Bool.or_eq_false_iff, decide_eq_false_iff_not] at h
    show (if kk = k then some vv else _) = none
    rw [if_neg h.1]
    exact ih h.2

theorem jLookup_append (k : List Char) (f1 f2 : List (List Char × JsonValue)) :
    jLookup k (f1 ++ f2) =
      match jLookup k f1 with
      | some v => some v
      | none => jLookup k f2 := by
  induction f1 with
  | nil => rfl
  | cons p rest ih =>
    obtain ⟨kk, vv⟩ := p
    by_cases hp : kk = k
    · show (if kk = k then some vv else _) =
        match (if kk = k then some vv else jLookup k rest) with
        | some v => some v
        | none => jLookup k f2
      simp only [if_pos hp]
    · show (if kk = k then some vv else _) =
        match (if kk = k then some vv else jLookup k rest) with
        | some v => some v
        | none => jLookup k f2
      rw [if_neg hp, if_neg hp]
      exact ih

theorem jLookup_setKey_self (f : List (List Char × JsonValue)) (k : List Char)
    (v : JsonValue) : jLookup k (setKey f k v) = some v := by
  unfold setKey
  split
  · next hany => exact jLookup_map_replace f k v hany
  · next hany =>
    rw [jLookup_append, jLookup_any_false f k (Bool.eq_false_iff.mpr hany)]
    show (if k = k then some v else _) = some v
    rw [if_pos rfl]

theorem jLookup_setKey_ne (f : List (List Char × JsonValue)) (k k2 : List Char)
    (v : JsonValue) (hne : k2 ≠ k) : jLookup k2 (setKey f k v) = jLookup k2 f := by
  unfold setKey
  split
  · exact jLookup_map_replace_ne f k k2 v hne
  · rw [jLookup_append]
    cases h : jLookup k2 f with
    | some w => rfl
    | none =>
      show (if k = k2 then some v else jLookup k2 ([] : List (List Char × JsonValue))) = none
      rw [if_neg (fun hh => hne hh.symm)]
      rfl

theorem patchCandidate_valid (c : JsonValue)
    (h : jCandidateValid false c = true) :
    jCandidateValid true (patchCandidate c) = true := by
  cases c with
  | obj f =>
    simp only [jCandidateValid, Bool.and_eq_true] at h
    obtain ⟨⟨⟨⟨⟨h1, h2⟩, h3⟩, h4⟩, h5⟩, h6⟩ := h
    simp only [patchCandidate, jCandidateValid, Bool.and_eq_true]
    refine ⟨⟨⟨⟨⟨?_, ?_⟩, ?_⟩, ?_⟩, ?_⟩, ?_⟩
    · unfold fieldStr at h1 ⊢
      rw [jLookup_setKey_ne _ _ _ _ (by decide)]
      exact h1
    · unfold fieldNullableStr at h2 ⊢
      rw [jLookup_setKey_ne _ _ _ _ (by decide)]
      exact h2
    · unfold fieldNullableStr at h3 ⊢
      rw [jLookup_setKey_ne _ _ _ _ (by decide)]
      exact h3
    · unfold fieldNum01 at h4 ⊢
      rw [jLookup_setKey_ne _ _ _ _ (by decide)]
      exact h4
    · rw [jLookup_setKey_self]
      cases hx : jLookup (strL "bbox") f with
      | none => simp [hx]
      | some w =>
        rw [hx] at h5
        cases w <;> simp_all
    · rw [jLookup_setKey_ne _ _ _ _ (by decide)]
      exact h6
  | null => simp [jCandidateValid] at h
  | bool b => simp [jCandidateValid] at h
  | num n => simp [jCandidateValid] at h
  | str s2 => simp [jCandidateValid] at h
  | arr a => simp [jCandidateValid] at h

/-- C5: a detection payload conforming to the Detection Schema except that
some candidates lack the `bbox` key, after `patchVisionPayload`, has
`bbox = null` on every such candidate and validates against the strict
`VisionSchema`. -/
theorem patchVisionPayload_c5 (nmax : ℕ) (v : JsonValue)
    (h : jVisionValid nmax false v = true) :
    jVisionValid nmax true (patchVisionPayload v) = true ∧
    (∀ f cs, v = JsonValue.obj f →
      jLookup (strL "candidates") f = some (JsonValue.arr cs) →
      ∀ c g, c ∈ cs → c = JsonValue.obj g → jLookup (strL "bbox") g = none →
        ∃ g2, patchCandidate c = JsonValue.obj g2 ∧
          jLookup (strL "bbox") g2 = some JsonValue.null) := by
  constructor
  · cases v with
    | obj f =>
      simp only [jVisionValid, Bool.and_eq_true] at h
      obtain ⟨⟨⟨hreq, hcand⟩, hiq⟩, herr⟩ := h
      cases hx : jLookup (strL "candidates") f with
      | none => rw [hx] at hcand; simp at hcand
      | some w =>
        rw [hx] at hcand
        cases w with
        | arr cs =>
          simp only [patchVisionPayload, hx]
          simp only [jVisionValid, Bool.and_eq_true]
          refine ⟨⟨⟨?_, ?_⟩, ?_⟩, ?_⟩
          · unfold fieldStr at hreq ⊢
            rw [jLookup_setKey_ne _ _ _ _ (by decide)]
            exact hreq
          · rw [jLookup_setKey_self]
            simp only [Bool.and_eq_true] at hcand
            obtain ⟨hlen, hall⟩ := hcand
            simp only [Bool.and_eq_true]
            refine ⟨by simpa [List.length_map] using hlen, ?_⟩
            rw [List.all_map]
            rw [List.all_eq_true] at hall ⊢
            intro c hc
            exact patchCandidate_valid c (hall c hc)
          · rw [jLookup_setKey_ne _ _ _ _ (by decide)]
            exact hiq
          · rw [jLookup_setKey_ne _ _ _ _ (by decide)]
            exact herr
        | null => simp at hcand
        | bool b => simp at hcand
        | num n => simp at hcand
        | str s2 => simp at hcand
        | obj g => simp at hcand
    | null => simp [jVisionValid] at h
    | bool b => simp [jVisionValid] at h
    | num n => simp [jVisionValid] at h
    | str s2 => simp [jVisionValid] at h
    | arr a => simp [jVisionValid] at h
  · rintro f cs rfl hx c g hc rfl hnone
    refine ⟨setKey g (strL "bbox") JsonValue.null, ?_, ?_⟩
    · simp only [patchCandidate, hnone]
    · exact jLookup_setKey_self g (strL "bbox") JsonValue.null

/-- C5 witness: a payload with one candidate lacking the `bbox` key. -/
theorem patchVisionPayload_c5_witness :
    jVisionValid 8 true
      (patchVisionPayload (JsonValue.obj
        [(strL "request_id", JsonValue.str (strL "r1")),
         (strL "candidates", JsonValue.arr
           [JsonValue.obj
             [(strL "raw_label", JsonValue.str (strL "Nike Pegasus 40")),
              (strL "brand", JsonValue.str (strL "Nike")),
              (strL "model", JsonValue.null),
              (strL "confidence", JsonValue.num ⟨78, -2⟩)]]),
         (strL "image_quality", JsonValue.obj
           [(strL "lighting", JsonValue.str (strL "ok")),
            (strL "blur", JsonValue.str (strL "mild")),
            (strL "occlusion", JsonValue.str (strL "some"))]),
         (strL "errors", JsonValue.arr [])])) = true := by
  refine (patchVisionPayload_c5 8 _ ?_).1
  rfl

/-- String value of a validated string field (`validated.data` access). -/
def getStrField (f : List (List Char × JsonValue)) (k : String) : String :=
  match jLookup (strL k) f with
  | some (.str s) => String.mk s
  | _ => ""

/-- Value of a validated nullable string field. -/
def getNullableStrField (f : List (List Char × JsonValue)) (k : String) : Option String :=
  match jLookup (strL k) f with
  | some (.str s) => some (String.mk s)
  | _ => none

/-- Value of a validated numeric field. -/
def getNumField (f : List (List Char × JsonValue)) (k : String) : ℚ :=
  match jLookup (strL k) f with
  | some (.num n) => jnumToRat n
  | _ => 0

/-- Typed value of a validated bbox object. -/
def decodeBBoxObj (b : List (List Char × JsonValue)) : BBox :=
  ⟨getNumField b "x", getNumField b "y", getNumField b "w", getNumField b "h"⟩

/-- Typed value of a validated candidate object. For schema-valid payloads the
fallback defaults are unreachable; they only make the decode total. -/
def decodeCandidate (v : JsonValue) : VisionCandidate :=
  match v with
  | .obj f =>
    { raw_label := getStrField f "raw_label",
      brand := getNullableStrField f "brand",
      model := getNullableStrField f "model",
      confidence := getNumField f "confidence",
      bbox :=
        match jLookup (strL "bbox") f with
        | some (.obj b) => some (decodeBBoxObj b)
        | _ => none,
      notes := getNullableStrField f "notes" }
  | _ => ⟨"", none, none, 0, none, none⟩

def decodeLighting (v : Option JsonValue) : Lighting :=
  match v with
  | some (.str s) =>
    if s = strL "good" then .good else if s = strL "ok" then .ok else .bad
  | _ => .ok

def decodeBlur (v : Option JsonValue) : Blur :=
  match v with
  | some (.str s) =>
    if s = strL "none" then .none else if s = strL "mild" then .mild else .high
  | _ => .mild

def decodeOcclusion (v : Option JsonValue) : Occlusion :=
  match v with
  | some (.str s) =>
    if s = strL "none" then .none else if s = strL "some" then .some else .heavy
  | _ => .some

def decodeImageQuality (v : Option JsonValue) : ImageQuality :=
  match v with
  | some (.obj q) =>
    ⟨decodeLighting (jLookup (strL "lighting") q),
     decodeBlur (jLookup (strL "blur") q),
     decodeOcclusion (jLookup (strL "occlusion") q)⟩
  | _ => ⟨.ok, .mild, .some⟩

def decodeErrorEntry (v : JsonValue) : ErrorEntry :=
  match v with
  | .obj f => ⟨getStrField f "code", getStrField f "message"⟩
  | _ => ⟨"", ""⟩

/-- Typed value of a schema-valid detection payload: models `validated.data`
returned by `VisionSchema.safeParse`. -/
def decodeVision (v : JsonValue) : VisionResult :=
  match v with
  | .obj f =>
    { request_id := getStrField f "request_id",
      candidates :=
        match jLookup (strL "candidates") f with
        | some (.arr cs) => cs.map decodeCandidate
        | _ => [],
      image_quality := decodeImageQuality (jLookup (strL "image_quality") f),
      errors :=
        match jLookup (strL "errors") f with
        | some (.arr es) => es.map decodeErrorEntry
        | _ => [] }
  | _ => ⟨"", [], ⟨.ok, .mild, .some⟩, []⟩

/-- The fixed deterministic detection result of the mock branch of
`runVision` in `openai.ts`. -/
def mockVisionResult (request_id : String) : VisionResult :=
  { request_id := request_id,
    candidates := [
      ⟨"Nike Pegasus 40", some "Nike", some "Pegasus 40", 78/100,
        some ⟨8/100, 22/100, 22/100, 18/100⟩, none⟩,
      ⟨"Brooks Ghost 15", some "Brooks", some "Ghost 15", 74/100,
        some ⟨36/100, 28/100, 20/100, 16/100⟩, none⟩,
      ⟨"Hoka Clifton 9", some "Hoka", some "Clifton 9", 69/100,
        some ⟨62/100, 31/100, 24/100, 19/100⟩, none⟩],
    image_quality := ⟨.ok, .mild, .some⟩,
    errors := [] }

/-- Result returned when the detection payload fails schema validation; the
message in the source is zod's dynamic error text, abstracted here. -/
def schemaInvalidVisionResult (request_id : String) (msg : String) : VisionResult :=
  { request_id := request_id, candidates := [],
    image_quality := ⟨.ok, .mild, .some⟩,
    errors := [⟨"VISION_SCHEMA_INVALID", msg⟩] }

/-- Result built by the catch block of `runVision` from a thrown error. -/
def upstreamErrorVisionResult (request_id : String) (e : JsErr) : VisionResult :=
  let statusText := match e.status with | some n => toString n | none => "unknown"
  let m := e.message
  { request_id := request_id, candidates := [],
    image_quality := ⟨.ok, .mild, .some⟩,
    errors := [⟨"VISION_UPSTREAM_ERROR", s!"OpenAI failed ({statusText}): {m}"⟩] }

/-- Embeds `runVision` from `openai.ts`. The upstream model call is the
`upstream` parameter (its thrown error or its `output_text`); the generated
UUID is the `request_id` parameter. The `try` body is the inner `Except`
value; the `catch` block is the match on it. Every return path is `.ok`. -/
def runVision (cfg : AiConfig) (request_id : String)
    (upstream : Except JsErr (List Char)) : Except JsErr VisionResult :=
  if cfg.mockVision || !cfg.openaiConfigured then
    .ok (mockVisionResult request_id)
  else
    let body : Except JsErr VisionResult :=
      match upstream with
      | .error e => .error e
      | .ok rawText =>
        match safeParseJsonFromModel rawText with
        | .error msg => .error ⟨none, msg⟩
        | .ok parsed =>
          let json := patchVisionPayload parsed
          if jVisionValid cfg.visionMaxCandidates true json then
            .ok (normalizeVisionResult (decodeVision json))
          else
            .ok (schemaInvalidVisionResult request_id
                  "Vision payload failed schema validation.")
    match body with
    | .ok r => .ok r
    | .error e => .ok (upstreamErrorVisionResult request_id e)

/-- C7: the vision and ranking stages never propagate an exception — for every
configuration and every upstream outcome both return `.ok` of a fully-formed
result — and each failure mode is encoded in the returned value: an upstream
error or a parse failure yields the `VISION_UPSTREAM_ERROR` result with no
candidates and one error entry; a schema-invalid payload yields the
`VISION_SCHEMA_INVALID` result with no candidates and one error entry. -/
theorem stages_never_throw_c7 (cfg : AiConfig) (rid : String)
    (upstream : Except JsErr (List Char)) (args : RankingArgs) :
    (∃ r, runVision cfg rid upstream = .ok r) ∧
    (∃ r2, runRanking cfg args = .ok r2) ∧
    (∀ e, upstream = .error e → (cfg.mockVision || !cfg.openaiConfigured) = false →
      runVision cfg rid upstream = .ok (upstreamErrorVisionResult rid e) ∧
      (upstreamErrorVisionResult rid e).candidates = [] ∧
      (upstreamErrorVisionResult rid e).errors.length = 1 ∧
      ((upstreamErrorVisionResult rid e).errors.map ErrorEntry.code) =
        ["VISION_UPSTREAM_ERROR"]) ∧
    (∀ text msg, upstream = .ok text →
      (cfg.mockVision || !cfg.openaiConfigured) = false →
      safeParseJsonFromModel text = .error msg →
      runVision cfg rid upstream = .ok (upstreamErrorVisionResult rid ⟨none, msg⟩)) ∧
    (∀ text parsed, upstream = .ok text →
      (cfg.mockVision || !cfg.openaiConfigured) = false →
      safeParseJsonFromModel text = .ok parsed →
      jVisionValid cfg.visionMaxCandidates true (patchVisionPayload parsed) = false →
      runVision cfg rid upstream =
        .ok (schemaInvalidVisionResult rid "Vision payload failed schema validation.") ∧
      (schemaInvalidVisionResult rid "Vision payload failed schema validation.").candidates = [] ∧
      (schemaInvalidVisionResult rid "Vision payload failed schema validation.").errors.length = 1) := by
  refine ⟨?_, ?_, ?_, ?_, ?_⟩
  · unfold runVision
    by_cases hb : (cfg.mockVision || !cfg.openaiConfigured) = true
    · rw [hb]
      exact ⟨mockVisionResult rid, by simp⟩
    · rw [Bool.eq_false_iff.mpr hb]
      simp only [Bool.false_eq_true, if_false]
      cases upstream with
      | error e => exact ⟨upstreamErrorVisionResult rid e, rfl⟩
      | ok text =>
        cases hs : safeParseJsonFromModel text with
        | error msg => exact ⟨upstreamErrorVisionResult rid ⟨none, msg⟩, by simp [hs]⟩
        | ok parsed =>
          by_cases hv : jVisionValid cfg.visionMaxCandidates true (patchVisionPayload parsed) = true
          · exact ⟨normalizeVisionResult (decodeVision (patchVisionPayload parsed)),
              by simp [hs, hv]⟩
          · refine ⟨schemaInvalidVisionResult rid "Vision payload failed schema validation.", ?_⟩
            simp [hs, Bool.eq_false_iff.mpr hv]
  · unfold runRanking
    by_cases hf : args.visionFailed = true
    · rw [hf, if_pos rfl]
      exact ⟨_, rfl⟩
    · rw [Bool.eq_false_iff.mpr hf]
      simp only [Bool.false_eq_true, if_false]
      by_cases hm : (cfg.mockRanking || !cfg.openaiConfigured) = true
      · rw [hm]
        simp only [if_true]
        split
        · exact ⟨_, rfl⟩
        · exact ⟨_, rfl⟩
      · rw [Bool.eq_false_iff.mpr hm]
        simp only [Bool.false_eq_true, if_false]
        exact ⟨_, rfl⟩
  · intro e he hb
    subst he
    refine ⟨?_, rfl, rfl, rfl⟩
    unfold runVision
    rw [hb]
    simp
  · intro text msg ht hb hs
    subst ht
    unfold runVision
    rw [hb]
    simp [hs]
  · intro text parsed ht hb hs hv
    subst ht
    refine ⟨?_, rfl, rfl⟩
    unfold runVision
    rw [hb]
    simp [hs, hv]

/-- C7 witness: a concrete failed upstream call and a concrete ranking call. -/
theorem stages_never_throw_c7_witness :
    (∃ r, runVision ⟨false, false, true, 8⟩ "req-7" (.error ⟨some 500, "boom"⟩) = .ok r) ∧
    runVision ⟨false, false, true, 8⟩ "req-7" (.error ⟨some 500, "boom"⟩) =
      .ok (upstreamErrorVisionResult "req-7" ⟨some 500, "boom"⟩) ∧
    (∃ r2, runRanking ⟨false, false, true, 8⟩
      ⟨"req-7", ⟨ArchType.normal, Usage.road, 20⟩, [], [], false⟩ = .ok r2) := by
  have h := stages_never_throw_c7 ⟨false, false, true, 8⟩ "req-7"
    (.error ⟨some 500, "boom"⟩)
    ⟨"req-7", ⟨ArchType.normal, Usage.road, 20⟩, [], [], false⟩
  exact ⟨h.1, (h.2.2.1 ⟨some 500, "boom"⟩ rfl rfl).1, h.2.1⟩

/-- The three mock vision candidates in the shape `runRanking` consumes. -/
def c6candA : RankCandidate := ⟨some "Nike", some "Pegasus 40", "Nike Pegasus 40", 78/100⟩

def c6candB : RankCandidate := ⟨some "Brooks", some "Ghost 15", "Brooks Ghost 15", 74/100⟩

def c6candC : RankCandidate := ⟨some "Hoka", some "Clifton 9", "Hoka Clifton 9", 69/100⟩

/-- The mock ranked list produced from the three mock vision candidates. -/
def c6ranked (profile : UserProfile) : List RankedRecommendation :=
  [mockRankedEntry profile 0 c6candA,
   mockRankedEntry profile 1 c6candB,
   mockRankedEntry profile 2 c6candC]

/-- C6: feeding the mock vision stage's three candidates into mock-mode
ranking with any valid profile yields `ranked` of length 3 with
`match_score` values `[90, 82, 74]` in order and `fallback_needed = false`. -/
theorem mockFlow_c6 (cfgV cfgR : AiConfig) (rid rid2 : String)
    (upstream : Except JsErr (List Char)) (profile : UserProfile)
    (specs : List (String × ShoeSpecs))
    (hmv : (cfgV.mockVision || !cfgV.openaiConfigured) = true)
    (hmr : (cfgR.mockRanking || !cfgR.openaiConfigured) = true)
    (hden : profile.weekly_mileage.den = 1)
    (hpos : 0 ≤ profile.weekly_mileage) :
    ∃ v r, runVision cfgV rid upstream = Except.ok v ∧
      runRanking cfgR ⟨rid2, profile,
        v.candidates.map (fun c => ⟨c.brand, c.model, c.raw_label, c.confidence⟩),
        specs, false⟩ = Except.ok r ∧
      r.ranked.length = 3 ∧
      r.ranked.map (fun e => e.match_score) = [90, 82, 74] ∧
      r.fallback_needed = false := by
  have hv : runVision cfgV rid upstream = .ok (mockVisionResult rid) := by
    unfold runVision
    rw [hmv, if_pos rfl]
  have hchain :
      (((((mockVisionResult rid).candidates.map
          (fun c => (⟨c.brand, c.model, c.raw_label, c.confidence⟩ : RankCandidate))).filter
            (fun c => jsTruthy c.brand && jsTruthy c.model)).take 3).enum).map
          (fun p => mockRankedEntry profile p.1 p.2) = c6ranked profile := by
    rfl
  have hvalid : rankingValid
      ⟨rid2, profile, c6ranked profile, [],
        decide ((c6ranked profile).length = 0), []⟩ = true := by
    norm_num [rankingValid, rankedItemValid, qInRange, mockRankedEntry, hden, hpos,
      c6ranked, decide_eq_true_eq]
  refine ⟨mockVisionResult rid,
    ⟨rid2, profile, c6ranked profile, [],
      decide ((c6ranked profile).length = 0), []⟩,
    hv, ?_, ?_, ?_, ?_⟩
  · unfold runRanking
    simp only [hmr, Bool.false_eq_true, if_false, eq_self_iff_true, if_true]
    rw [hchain, if_pos hvalid]
  · simp [c6ranked]
  · simp only [c6ranked, List.map_cons, List.map_nil, mockRankedEntry]
    norm_num
  · rfl

/-- C6 witness at concrete configurations and the profile from the spec. -/
theorem mockFlow_c6_witness :
    ∃ v r, runVision ⟨true, true, true, 8⟩ "rv" (Except.ok []) = Except.ok v ∧
      runRanking ⟨true, true, true, 8⟩ ⟨"rr", ⟨ArchType.normal, Usage.road, 20⟩,
        v.candidates.map (fun c => ⟨c.brand, c.model, c.raw_label, c.confidence⟩),
        [], false⟩ = Except.ok r ∧
      r.ranked.length = 3 ∧
      r.ranked.map (fun e => e.match_score) = [90, 82, 74] ∧
      r.fallback_needed = false :=
  mockFlow_c6 ⟨true, true, true, 8⟩ ⟨true, true, true, 8⟩ "rv" "rr" (Except.ok [])
    ⟨ArchType.normal, Usage.road, 20⟩ [] rfl rfl (by norm_num) (by norm_num)

/-- Fixed color palette of the overlay renderer. -/
def boxColors : List String :=
  ["#f43f5e", "#10b981", "#3b82f6", "#f59e0b", "#8b5cf6", "#14b8a6", "#ef4444", "#22c55e"]

/-- Embeds `escapeSvgText`: XML-escape the five special characters. -/
def escapeSvgText (input : String) : String :=
  ((((input.replace "&" "&amp;").replace "<" "&lt;").replace ">" "&gt;").replace
    "\"" "&quot;").replace "\x27" "&apos;"

/-- Embeds `candidateLabel`: brand+model when both truthy, else the raw
label, plus the rounded confidence percentage. -/
def candidateLabel (candidate : VisionCandidate) : String :=
  let bs := jsStr candidate.brand
  let ms := jsStr candidate.model
  let name :=
    if jsTruthy candidate.brand && jsTruthy candidate.model then s!"{bs} {ms}"
    else candidate.raw_label
  let pct := jsRound (candidate.confidence * 100)
  s!"{name} ({pct}%)"

/-- Embeds `estimateTextWidth`: `max(40, round(len * fontSize * 0.58))`. -/
def estimateTextWidth (text : String) (fontSize : ℤ) : ℤ :=
  max 40 (jsRound ((text.length : ℚ) * (fontSize : ℚ) * (58/100)))

/-- The bounding-box outline element of one candidate. -/
def rectElem (x y w h : ℤ) (color : String) (strokeWidth : ℤ) : String :=
  s!"<rect x=\"{x}\" y=\"{y}\" width=\"{w}\" height=\"{h}\" fill=\"none\" stroke=\"{color}\" stroke-width=\"{strokeWidth}\" />"

/-- The filled label chip element of one candidate. -/
def labelRectElem (x y w h : ℤ) (color : String) : String :=
  s!"<rect x=\"{x}\" y=\"{y}\" width=\"{w}\" height=\"{h}\" fill=\"{color}\" fill-opacity=\"0.9\" rx=\"4\" ry=\"4\" />"

/-- The label text element of one candidate. -/
def labelTextElem (x y fontSize : ℤ) (label : String) : String :=
  let esc := escapeSvgText label
  s!"<text x=\"{x}\" y=\"{y}\" font-family=\"Arial, sans-serif\" font-size=\"{fontSize}\" fill=\"#111111\">{esc}</text>"

/-- The three SVG elements drawn for a candidate with a bbox, from
`buildOverlaySvg`: outline, label chip, label text, with the label flipped
or clamped inward when it would overflow the image. -/
def boxElems (width height strokeWidth fontSize : ℤ) (i : ℕ)
    (candidate : VisionCandidate) (b : BBox) : List String :=
  let labelPadX : ℤ := 8
  let labelPadY : ℤ := 5
  let label := candidateLabel candidate
  let color := boxColors.getD (i % boxColors.length) ""
  let x := jsRound (b.x * (width : ℚ))
  let y := jsRound (b.y * (height : ℚ))
  let boxWidth := max 1 (jsRound (b.w * (width : ℚ)))
  let boxHeight := max 1 (jsRound (b.h * (height : ℚ)))
  let xSafe := min x (max 0 (width - 1))
  let ySafe := min y (max 0 (height - 1))
  let wSafe := min boxWidth (width - xSafe)
  let hSafe := min boxHeight (height - ySafe)
  let labelWidth := min (width - 4) (estimateTextWidth label fontSize + labelPadX * 2)
  let labelHeight := fontSize + labelPadY * 2
  let labelX0 := xSafe
  let labelY0 := ySafe - labelHeight - 4
  let labelX := if labelX0 + labelWidth > width - 2 then max 2 (width - labelWidth - 2) else labelX0
  let labelY := if labelY0 < 2 then min (height - labelHeight - 2) (ySafe + 4) else labelY0
  [rectElem xSafe ySafe wSafe hSafe color strokeWidth,
   labelRectElem labelX labelY labelWidth labelHeight color,
   labelTextElem (labelX + labelPadX) (labelY + labelPadY + fontSize - 2) fontSize label]

/-- The candidate loop of `buildOverlaySvg`: box elements for localized
candidates in order, and the labels of unlocalized candidates in order. -/
def overlayLoop (width height strokeWidth fontSize : ℤ) :
    ℕ → List VisionCandidate → List String × List String
  | _, [] => ([], [])
  | i, candidate :: rest =>
    let (es, ms) := overlayLoop width height strokeWidth fontSize (i + 1) rest
    match candidate.bbox with
    | none => (es, candidateLabel candidate :: ms)
    | some b => (boxElems width height strokeWidth fontSize i candidate b ++ es, ms)

/-- Font size of the summary panel list: `max(12, round(fontSize * 0.9))`. -/
def overlayListFontSize (fontSize : ℤ) : ℤ :=
  max 12 (jsRound ((fontSize : ℚ) * (9/10)))

/-- Header line of the summary panel, showing the total unlocalized count. -/
def noBboxHeader (m : ℕ) : String := s!"No bbox ({m})"

/-- Overflow line of the summary panel for `n` labels beyond the first 8. -/
def moreLine (n : ℕ) : String := s!"+{n} more"

/-- The text lines of the summary panel: a header with the total count, up to
8 labels, and a `+N more` line when more were cut. -/
def overlayPanelLines (missing : List String) : List String :=
  let visibleMissing := missing.take 8
  let moreCount := missing.length - visibleMissing.length
  let lines := noBboxHeader missing.length :: visibleMissing
  if moreCount > 0 then lines ++ [moreLine moreCount] else lines

/-- The background rectangle of the summary panel. -/
def panelRectElem (x y w h : ℤ) : String :=
  s!"<rect x=\"{x}\" y=\"{y}\" width=\"{w}\" height=\"{h}\" fill=\"#111111\" fill-opacity=\"0.72\" rx=\"6\" ry=\"6\" />"

/-- One text line element of the summary panel. -/
def panelTextElem (x y fontSize : ℤ) (line : String) : String :=
  let esc := escapeSvgText line
  s!"<text x=\"{x}\" y=\"{y}\" font-family=\"Arial, sans-serif\" font-size=\"{fontSize}\" fill=\"#f8fafc\">{esc}</text>"

/-- The summary panel block of `buildOverlaySvg`: one background rectangle in
the fixed corner (10, 10) and one text element per line. -/
def overlayPanelElements (width fontSize : ℤ) (missing : List String) : List String :=
  let listFontSize := overlayListFontSize fontSize
  let rowHeight := listFontSize + 4
  let lines := overlayPanelLines missing
  let maxLineWidth := lines.foldl
    (fun acc line => max acc (estimateTextWidth line listFontSize))
    (estimateTextWidth "No bbox" listFontSize)
  let panelWidth := min (width - 20) (maxLineWidth + 20)
  let panelHeight := (lines.length : ℤ) * rowHeight + 12
  let panelX : ℤ := 10
  let panelY : ℤ := 10
  panelRectElem panelX panelY panelWidth panelHeight ::
    lines.enum.map (fun p =>
      panelTextElem (panelX + 10) (panelY + 8 + ((p.1 : ℤ) + 1) * rowHeight - 4)
        listFontSize p.2)

/-- The outer SVG wrapper of `buildOverlaySvg`. -/
def svgWrap (width height : ℤ) (body : String) : String :=
  s!"<svg xmlns=\"http://www.w3.org/2000/svg\" width=\"{width}\" height=\"{height}\" viewBox=\"0 0 {width} {height}\">{body}</svg>"

/-- Derived stroke width of the overlay: `max(2, round(minSide * 0.004))`. -/
def overlayStrokeWidth (width height : ℤ) : ℤ :=
  max 2 (jsRound (((min width height) : ℚ) * (4/1000)))

/-- Derived font size of the overlay: `max(13, round(minSide * 0.028))`. -/
def overlayFontSize (width height : ℤ) : ℤ :=
  max 13 (jsRound (((min width height) : ℚ) * (28/1000)))

/-- The box elements accumulated by the candidate loop of `buildOverlaySvg`. -/
def overlayBoxElements (width height : ℤ) (cs : List VisionCandidate) : List String :=
  (overlayLoop width height (overlayStrokeWidth width height)
    (overlayFontSize width height) 0 cs).1

/-- The unlocalized labels accumulated by the candidate loop of
`buildOverlaySvg`. -/
def overlayMissing (width height : ℤ) (cs : List VisionCandidate) : List String :=
  (overlayLoop width height (overlayStrokeWidth width height)
    (overlayFontSize width height) 0 cs).2

/-- Embeds `buildOverlaySvg` from the overlay renderer: derived stroke and
font sizes, the candidate loop, the summary panel when any candidate lacks a
bbox, and the joined SVG document. -/
def buildOverlaySvg (width height : ℤ) (candidates : List VisionCandidate) : String :=
  let elements := overlayBoxElements width height candidates
  let missingLabels := overlayMissing width height candidates
  let allElements :=
    if 0 < missingLabels.length then
      elements ++ overlayPanelElements width (overlayFontSize width height) missingLabels
    else elements
  svgWrap width height (String.join allElements)

theorem overlayLoop_snd (width height strokeWidth fontSize : ℤ)
    (cs : List VisionCandidate) : ∀ i,
    (overlayLoop width height strokeWidth fontSize i cs).2 =
      (cs.filter fun c => c.bbox.isNone).map candidateLabel := by
  induction cs with
  | nil => intro i; rfl
  | cons c rest ih =>
    intro i
    cases hb : c.bbox with
    | none =>
      simp only [overlayLoop, hb, List.filter_cons, Option.isNone_none, if_true,
        List.map_cons]
      rw [← ih (i + 1)]
    | some b =>
      simp only [overlayLoop, hb, List.filter_cons, Option.isNone_some,
        Bool.false_eq_true, if_false]
      rw [← ih (i + 1)]

theorem overlayPanelLines_eq (missing : List String) :
    overlayPanelLines missing =
      noBboxHeader missing.length :: missing.take 8 ++
        (if 8 < missing.length then [moreLine (missing.length - 8)] else []) := by
  unfold overlayPanelLines
  by_cases hm : 8 < missing.length
  · have htake : (missing.take 8).length = 8 := by
      rw [List.length_take]; omega
    have hmore : 0 < missing.length - (missing.take 8).length := by omega
    rw [if_pos hmore, if_pos hm, htake, List.cons_append]
  · have hmore : ¬ 0 < missing.length - (missing.take 8).length := by
      rw [List.length_take]; omega
    rw [if_neg hmore, if_neg hm, List.append_nil]

/-- C9: when `m > 0` candidates lack a bbox, the generated SVG consists of
the box elements followed by a single summary panel: one background
rectangle in the fixed corner plus one text line per panel line; the lines
are a header showing the total count `m`, then `min m 8` unlocalized labels,
then a `+N more` line exactly when `m > 8` with `N = m - 8`. When `m = 0`
no panel elements are emitted. -/
theorem buildOverlaySvg_c9 (width height : ℤ) (cs : List VisionCandidate) :
    overlayMissing width height cs =
      (cs.filter fun c => c.bbox.isNone).map candidateLabel ∧
    (overlayMissing width height cs).length =
      (cs.filter fun c => c.bbox.isNone).length ∧
    ((cs.filter fun c => c.bbox.isNone).length = 0 →
      buildOverlaySvg width height cs =
        svgWrap width height (String.join (overlayBoxElements width height cs))) ∧
    (0 < (cs.filter fun c => c.bbox.isNone).length →
      buildOverlaySvg width height cs =
        svgWrap width height (String.join
          (overlayBoxElements width height cs ++
            overlayPanelElements width (overlayFontSize width height)
              (overlayMissing width height cs))) ∧
      (overlayPanelElements width (overlayFontSize width height)
          (overlayMissing width height cs)).length =
        1 + (overlayPanelLines (overlayMissing width height cs)).length ∧
      overlayPanelLines (overlayMissing width height cs) =
        noBboxHeader ((cs.filter fun c => c.bbox.isNone).length) ::
          (overlayMissing width height cs).take 8 ++
          (if 8 < (cs.filter fun c => c.bbox.isNone).length then
            [moreLine ((cs.filter fun c => c.bbox.isNone).length - 8)] else []) ∧
      ((overlayMissing width height cs).take 8).length =
        min ((cs.filter fun c => c.bbox.isNone).length) 8 ∧
      (overlayPanelLines (overlayMissing width height cs)).length =
        1 + min ((cs.filter fun c => c.bbox.isNone).length) 8 +
          (if 8 < (cs.filter fun c => c.bbox.isNone).length then 1 else 0)) := by
  have h1 : overlayMissing width height cs =
      (cs.filter fun c => c.bbox.isNone).map candidateLabel :=
    overlayLoop_snd width height (overlayStrokeWidth width height)
      (overlayFontSize width height) cs 0
  have h2 : (overlayMissing width height cs).length =
      (cs.filter fun c => c.bbox.isNone).length := by
    rw [h1, List.length_map]
  have hbuild : buildOverlaySvg width height cs =
      svgWrap width height (String.join
        (if 0 < (overlayMissing width height cs).length then
          overlayBoxElements width height cs ++
            overlayPanelElements width (overlayFontSize width height)
              (overlayMissing width height cs)
        else overlayBoxElements width height cs)) := rfl
  refine ⟨h1, h2, ?_, ?_⟩
  · intro h0
    have hm0 : (overlayMissing width height cs).length = 0 := by rw [h2]; exact h0
    rw [hbuild, hm0]
    rw [if_neg (lt_irrefl 0)]
  · intro hpos
    have hmlen : 0 < (overlayMissing width height cs).length := by rw [h2]; exact hpos
    refine ⟨?_, ?_, ?_, ?_, ?_⟩
    · rw [hbuild, if_pos hmlen]
    · unfold overlayPanelElements
      simp only [List.length_cons, List.length_map, List.enum_length]
      omega
    · rw [overlayPanelLines_eq, h2]
    · rw [List.length_take, h2, Nat.min_comm]
    · rw [overlayPanelLines_eq]
      by_cases h8 : 8 < (cs.filter fun c => c.bbox.isNone).length
      · rw [if_pos h8, if_pos (h2 ▸ h8 : 8 < (overlayMissing width height cs).length)]
        simp only [List.length_cons, List.length_append, List.length_take,
          List.length_nil, h2]
        omega
      · rw [if_neg h8, if_neg (h2 ▸ h8 : ¬ 8 < (overlayMissing width height cs).length)]
        simp only [List.length_cons, List.length_append, List.length_take,
          List.length_nil, h2]
        omega

/-- A concrete unlocalized candidate for the C9 witness. -/
def c9cand : VisionCandidate := ⟨"Mystery shoe", none, none, 1/2, none, none⟩

/-- C9 witness: one unlocalized candidate produces the summary panel. -/
theorem buildOverlaySvg_c9_witness :
    buildOverlaySvg 100 80 [c9cand] =
      svgWrap 100 80 (String.join
        (overlayBoxElements 100 80 [c9cand] ++
          overlayPanelElements 100 (overlayFontSize 100 80)
            (overlayMissing 100 80 [c9cand]))) ∧
    overlayPanelLines (overlayMissing 100 80 [c9cand]) =
      noBboxHeader ((([c9cand] : List VisionCandidate).filter
          fun c => c.bbox.isNone).length) ::
        (overlayMissing 100 80 [c9cand]).take 8 ++
        (if 8 < (([c9cand] : List VisionCandidate).filter
            fun c => c.bbox.isNone).length then
          [moreLine ((([c9cand] : List VisionCandidate).filter
            fun c => c.bbox.isNone).length - 8)] else []) := by
  have h := buildOverlaySvg_c9 100 80 [c9cand]
  have hp := h.2.2.2 (by decide)
  exact ⟨hp.1, hp.2.2.1⟩
